import Mathlib

/-!
Verification development for the persistent piece store and session-rehydration
subsystem of a WebTorrent/OPFS proof-of-concept client.

The embedding models:
* `src/utils/opfs.ts` — `OPFSManager` (directory driver, descriptor store) and
  `WebTorrentOPFSPieceStore` (the piece store adapter with its process-wide
  instance registry);
* the `useWebTorrent` hook — `loadExistingTorrents` (session rehydrator),
  the rehydration `verify` handler, and `storeTorrentMeta`.

Modelling conventions:
* A `FileSystemDirectoryHandle`'s contents are a `Table β` — an association
  list from entry name to contents; writes fully overwrite the named entry.
* Asynchronous methods are state-passing functions; fallible operations
  return `Except String _`, and best-effort operations take a failure oracle
  (`String → Bool`) saying which underlying operations would throw.
* Bytes are opaque `Nat`s (the code never computes on byte values).
* JS falsiness on optional fields is modelled explicitly (`truthy`,
  `jsOrDefault`, `jsOrStr`).
-/

/-- One stored entry table (contents of one directory handle): association
list from entry name to value.  Used both for a torrent's chunk directory
(`torrents/{infoHash}/`) and for the descriptor directory (`torrent-meta/`). -/
abbrev Table (β : Type) := List (String × β)

/-- Read an entry: first match by name (tables written through `tWrite` hold
at most one entry per name). -/
def tRead {β : Type} : Table β → String → Option β
  | [], _ => none
  | (n, b) :: rest, name => if n = name then some b else tRead rest name

/-- Remove every entry with the given name (`removeEntry`). -/
def tDelete {β : Type} : Table β → String → Table β
  | [], _ => []
  | (n, b) :: rest, name =>
      if n = name then tDelete rest name else (n, b) :: tDelete rest name

/-- Fully overwrite the named entry (`getFileHandle(name, {create:true})`
followed by `createWritable().write(...)` truncates and rewrites). -/
def tWrite {β : Type} (t : Table β) (name : String) (b : β) : Table β :=
  (name, b) :: tDelete t name

/-- Names of all entries (`for await (const handle of dir.values())`). -/
def tNames {β : Type} (t : Table β) : List String := t.map Prod.fst

/-- Values of all entries. -/
def tVals {β : Type} (t : Table β) : List β := t.map Prod.snd

/-- JS truthiness of an optional boolean field (`undefined` and `false` are
falsy). -/
def truthy (o : Option Bool) : Bool := o.getD false

/-- JS `v || d` for an optional number (`undefined` and `0` are falsy). -/
def jsOrDefault (v : Option Nat) (d : Nat) : Nat :=
  match v with
  | none => d
  | some 0 => d
  | some (n + 1) => n + 1

/-- JS `v || d` for an optional string (`undefined` and `""` are falsy). -/
def jsOrStr (v : Option String) (d : String) : String :=
  match v with
  | none => d
  | some s => if s = "" then d else s

/-- JS template interpolation of a possibly-`undefined` string. -/
def jsTemplateStr (o : Option String) : String := o.getD ("undefined")

/-- `String.prototype.startsWith`, modelled on the underlying character
lists. -/
def strStartsWith (s pat : String) : Bool := pat.data.isPrefixOf s.data

/-- A chunk: the byte contents of one `__tmp__webtorrent.chunk.{i}` entry. -/
abbrev Chunk := List Nat

/-- A torrent's chunk directory `torrents/{infoHash}/`. -/
abbrev Dir := Table Chunk

/-- `OPFSManager.writeFile`: overwrite `fileName` with `data`; an underlying
failure (oracle `writeFails`) is rethrown as `Failed to write file ...`. -/
def writeFile (d : Dir) (writeFails : String → Bool) (fileName : String)
    (data : Chunk) : Except String Dir :=
  if writeFails fileName then .error ("Failed to write file " ++ fileName)
  else .ok (tWrite d fileName data)

/-- `OPFSManager.readFile`: `NotFoundError` (entry absent) yields `null`;
any other underlying failure (oracle `readFails`) is rethrown. -/
def readFile (d : Dir) (readFails : String → Bool) (fileName : String) :
    Except String (Option Chunk) :=
  match tRead d fileName with
  | none => .ok none
  | some c =>
      if readFails fileName then .error ("Failed to read file " ++ fileName)
      else .ok (some c)

/-- `OPFSManager.deleteFile`: best-effort `removeEntry`; a failure (oracle
`delFails`) is caught and logged, leaving the directory unchanged. -/
def deleteFile (d : Dir) (delFails : String → Bool) (fileName : String) : Dir :=
  if delFails fileName then d else tDelete d fileName

/-- One file entry of `StoredTorrentMeta.files`. -/
structure TFile where
  name : String
  length : Nat
  path : String
deriving DecidableEq

/-- `StoredTorrentMeta` (the transfer descriptor).  `isSeeded` and
`isVerified` are optional in the TS interface; `none` models the field being
absent/`undefined` in the stored JSON. -/
structure StoredTorrentMeta where
  infoHash : String
  name : String
  magnetURI : String
  length : Nat
  files : List TFile
  createdAt : Nat
  isSeeded : Option Bool
  isVerified : Option Bool
deriving DecidableEq

/-- The descriptor directory `torrent-meta/`.  Every entry the subsystem
writes is named `{infoHash}.json`; the table is keyed by `infoHash` (the
`.json` suffix carries no information and `getAllTorrentMetas`' `.json`
filter accepts exactly the entries this store writes). -/
abbrev MetaDir := Table StoredTorrentMeta

/-- Descending insertion by `createdAt` (comparator
`(a, b) => b.createdAt - a.createdAt`). -/
def insertByCreatedAtDesc (m : StoredTorrentMeta) :
    List StoredTorrentMeta → List StoredTorrentMeta
  | [] => [m]
  | x :: xs =>
      if x.createdAt ≤ m.createdAt then m :: x :: xs
      else x :: insertByCreatedAtDesc m xs

/-- Sort descriptors by `createdAt` descending. -/
def sortByCreatedAtDesc (l : List StoredTorrentMeta) : List StoredTorrentMeta :=
  l.foldr insertByCreatedAtDesc []

/-- `OPFSManager.getAllTorrentMetas`: every parsed descriptor, sorted by
`createdAt` descending. -/
def getAllTorrentMetas (md : MetaDir) : List StoredTorrentMeta :=
  sortByCreatedAtDesc (tVals md)

/-- The outcome of the adapter's single memoized initialization task
(`initPromise` / `initializeAsync`): it either resolved (the torrent
directory handle was created) or rejected. -/
inductive InitOutcome where
  | success
  | failure
deriving DecidableEq

/-- One `WebTorrentOPFSPieceStore` instance.  `instId` models JS object
identity (two stores are the same instance iff their `instId`s coincide);
`hasInitPromise` models `initPromise !== null`. -/
structure WebTorrentOPFSPieceStore where
  infoHash : String
  fileIndex : Nat
  chunkLength : Nat
  fileName : String
  initialized : Bool
  hasInitPromise : Bool
  instId : Nat
deriving DecidableEq

/-- The process-wide static registry `WebTorrentOPFSPieceStore.instances`. -/
abbrev Registry := Table WebTorrentOPFSPieceStore

/-- The dynamic `storeOpts` object handed to the store factory
(`storeOpts.torrent?.infoHash`, `storeOpts.file?.index`,
`storeOpts.file?.name`), each field possibly `undefined`. -/
structure StoreOpts where
  torrentInfoHash : Option String
  fileIndex : Option Nat
  fileName : Option String
deriving DecidableEq

/-- The registry key `` `${storeOpts.torrent?.infoHash}_${storeOpts.file?.index ?? 0}` ``. -/
def storeKey (opts : StoreOpts) : String :=
  jsTemplateStr opts.torrentInfoHash ++ "_" ++ toString (opts.fileIndex.getD 0)

/-- Result of running the `WebTorrentOPFSPieceStore` constructor. -/
structure ConstructResult where
  store : WebTorrentOPFSPieceStore
  registry : Registry
  newTaskCreated : Bool
deriving DecidableEq

/-- The `WebTorrentOPFSPieceStore` constructor.  If the registry already
holds an instance for the key it is returned unchanged; otherwise the fields
are populated (with the constructor's defaults), a missing/empty `infoHash`
throws, the new instance is registered, and `initPromise` is started
(`newTaskCreated = true`).  `freshId` is the identity of the would-be new
object. -/
def construct (reg : Registry) (freshId chunkLength : Nat) (opts : StoreOpts) :
    Except String ConstructResult :=
  let key := storeKey opts
  match tRead reg key with
  | some s => .ok ⟨s, reg, false⟩
  | none =>
      let fi := opts.fileIndex.getD 0
      let ih := (opts.torrentInfoHash.getD (""))
      if ih = "" then .error ("infoHash is required for OPFS store")
      else
        let s : WebTorrentOPFSPieceStore :=
          { infoHash := ih, fileIndex := fi, chunkLength := chunkLength
          , fileName := jsOrStr opts.fileName ("file_" ++ toString fi)
          , initialized := false, hasInitPromise := true, instId := freshId }
        .ok ⟨s, tWrite reg key s, true⟩

/-- Repeated construction for one key: run the constructor once per entry of
`freshIds`, threading the registry and counting how many initialization
tasks were created. -/
def constructRepeat (chunkLength : Nat) (opts : StoreOpts) :
    Registry → List Nat → Registry × Nat
  | reg, [] => (reg, 0)
  | reg, freshId :: rest =>
      match construct reg freshId chunkLength opts with
      | .ok r =>
          let t := constructRepeat chunkLength opts r.registry rest
          (t.1, (if r.newTaskCreated then 1 else 0) + t.2)
      | .error _ => constructRepeat chunkLength opts reg rest

/-- WebTorrent's expected chunk naming convention
(`getChunkFileName`). -/
def getChunkFileName (index : Nat) : String :=
  "__tmp__webtorrent.chunk." ++ toString index

/-- The chunk-name marker `destroyAsync` filters on. -/
def tmpChunkMark : String := "__tmp__webtorrent.chunk."

/-- `ensureInitialized`: if already initialized return at once, otherwise
await the memoized initialization task (or a direct `initializeAsync` call —
both resolve to the single task's outcome `init`). -/
def ensureInitialized (s : WebTorrentOPFSPieceStore) (init : InitOutcome) :
    Except String Unit :=
  if s.initialized then .ok ()
  else
    match init with
    | .success => .ok ()
    | .failure => .error ("Failed to initialize OPFS store")

/-- `putAsync`: await initialization, then write the chunk entry for `index`
under the file's torrent directory.  (After a successful initialization the
directory handle is available — `initializeAsync` sets `torrentDir` before
`initialized`, so the `!this.torrentDir` guard cannot fire here.) -/
def putAsync (s : WebTorrentOPFSPieceStore) (init : InitOutcome) (d : Dir)
    (writeFails : String → Bool) (index : Nat) (buf : Chunk) :
    Except String Dir :=
  match ensureInitialized s init with
  | .error e => .error e
  | .ok _ => writeFile d writeFails (getChunkFileName index) buf

/-- Outcome delivered to the engine's `put` callback. -/
inductive PutOutcome where
  | ok (d : Dir)
  | err (msg : String)
deriving DecidableEq

/-- The `put(index, buf, cb)` method: `putAsync` resolution calls `cb()`,
rejection calls `cb(error)`. -/
def WebTorrentOPFSPieceStore.put (s : WebTorrentOPFSPieceStore)
    (init : InitOutcome) (d : Dir) (writeFails : String → Bool) (index : Nat)
    (buf : Chunk) : PutOutcome :=
  match putAsync s init d writeFails index buf with
  | .ok d2 => .ok d2
  | .error e => .err e

/-- The `opts` object of `get(index, opts, cb)`. -/
structure GetOpts where
  offset : Option Nat
  length : Option Nat
deriving DecidableEq

/-- The `try { ... }` body of `getAsync`: read the chunk entry (absent is
normal and yields `null`); extract its buffer (`bufFails` models
`file.arrayBuffer()` throwing, caught by the inner `try` and mapped to
`null`); a zero-length buffer yields `null`; otherwise slice
`[start, start + length)` with JS `||` defaults and `ArrayBuffer.slice`
clamping. -/
def getAsyncBody (d : Dir) (readFails bufFails : String → Bool) (index : Nat)
    (opts : GetOpts) : Except String (Option Chunk) :=
  match readFile d readFails (getChunkFileName index) with
  | .error e => .error e
  | .ok none => .ok none
  | .ok (some buf) =>
      if bufFails (getChunkFileName index) then .ok none
      else if buf.length = 0 then .ok none
      else
        let start := jsOrDefault opts.offset 0
        let len := jsOrDefault opts.length (buf.length - start)
        .ok (some ((buf.drop start).take len))

/-- `getAsync`: await initialization, then run the read body; any rejection
inside the body's `try` is caught (`catch` logs and returns `null`). -/
def getAsync (s : WebTorrentOPFSPieceStore) (init : InitOutcome) (d : Dir)
    (readFails bufFails : String → Bool) (index : Nat) (opts : GetOpts) :
    Except String (Option Chunk) :=
  match ensureInitialized s init with
  | .error e => .error e
  | .ok _ =>
      match getAsyncBody d readFails bufFails index opts with
      | .error _ => .ok none
      | .ok r => .ok r

/-- Outcome delivered to the engine's `get` callback: an error, a data
buffer, or `null` (absent piece). -/
inductive GetOuterResult where
  | err (msg : String)
  | data (bytes : Chunk)
  | absent
deriving DecidableEq

/-- Whether a `get` outcome reported an error to the callback. -/
def GetOuterResult.isError : GetOuterResult → Bool
  | .err _ => true
  | _ => false

/-- The `get(index, opts, cb)` method: a store that is not yet initialized
calls `cb(new Error('Store not initialized'))` immediately; otherwise
`getAsync`'s resolution is delivered as data / `null`, and a rejection as an
error. -/
def WebTorrentOPFSPieceStore.get (s : WebTorrentOPFSPieceStore)
    (init : InitOutcome) (d : Dir) (readFails bufFails : String → Bool)
    (index : Nat) (opts : GetOpts) : GetOuterResult :=
  if s.initialized = false then .err ("Store not initialized")
  else
    match getAsync s init d readFails bufFails index opts with
    | .ok (some buffer) => .data buffer
    | .ok none => .absent
    | .error e => .err e

/-- `destroyAsync`: after initialization, list the torrent directory's
entries, keep those matching the chunk naming convention, and delete each
best-effort (`deleteFile` swallows failures). -/
def WebTorrentOPFSPieceStore.destroyAsync (s : WebTorrentOPFSPieceStore)
    (d : Dir) (delFails : String → Bool) : Dir :=
  if s.infoHash = "" then d
  else
    let chunkFiles :=
      (tNames d).filter (fun f => strStartsWith f tmpChunkMark)
    chunkFiles.foldl (fun acc f => deleteFile acc delFails f) d

/-- Result of `destroy()`: the registry after the synchronous
`instances.delete(key)` and the torrent directory after `destroyAsync`. -/
structure DestroyResult where
  registry : Registry
  dir : Dir
deriving DecidableEq

/-- The `destroy(cb)` method: the instance is removed from the registry
synchronously, then `destroyAsync` purges this file's chunk entries. -/
def WebTorrentOPFSPieceStore.destroy (s : WebTorrentOPFSPieceStore)
    (reg : Registry) (d : Dir) (delFails : String → Bool) : DestroyResult :=
  { registry := tDelete reg (s.infoHash ++ "_" ++ toString s.fileIndex)
  , dir := s.destroyAsync d delFails }

/-- The fields of the engine's torrent object that `storeTorrentMeta` and the
rehydration handlers read.  `progressOverride` models the ad hoc
`torrent._progressOverride` field (`none` = not set). -/
structure TorrentObj where
  infoHash : String
  name : String
  magnetURI : String
  length : Nat
  files : List TFile
  progressOverride : Option Nat
deriving DecidableEq

/-- The descriptor literal built by the hook's `storeTorrentMeta`: exactly
`{infoHash, name, magnetURI, length, files, createdAt: Date.now()}`.  The
optional `isSeeded`/`isVerified` fields are not part of the literal, so the
serialized record carries neither (any such fields on the argument object
are dropped). -/
def storeTorrentMetaRecord (t : TorrentObj) (now : Nat) : StoredTorrentMeta :=
  { infoHash := t.infoHash, name := t.name, magnetURI := t.magnetURI
  , length := t.length, files := t.files, createdAt := now
  , isSeeded := none, isVerified := none }

/-- `storeTorrentMeta` (OPFS-supported path, `infoHash` present): build the
descriptor literal and overwrite `torrent-meta/{infoHash}.json`. -/
def storeTorrentMeta (md : MetaDir) (t : TorrentObj) (now : Nat) : MetaDir :=
  tWrite md (storeTorrentMetaRecord t now).infoHash (storeTorrentMetaRecord t now)

/-- The rehydration `torrent.on('verify', ...)` handler of
`loadExistingTorrents`: for a seeded descriptor, re-persist the descriptor
via `storeTorrentMeta({...torrent, isSeeded: true, isVerified: true})` (the
spread's extra flags are not among the fields `storeTorrentMeta`
serializes) and set `_progressOverride = 1`; otherwise nothing changes.
Returns the transfer's progress override and the descriptor directory after
the handler runs. -/
def onVerifyHandler (md : MetaDir) (meta : StoredTorrentMeta) (t : TorrentObj)
    (now : Nat) : Option Nat × MetaDir :=
  if truthy meta.isSeeded then
    (some 1, storeTorrentMeta md t now)
  else
    (t.progressOverride, md)

/-- One transfer re-registration performed by `loadExistingTorrents`:
`client.add(meta.magnetURI, {store: createOPFSStore, skipVerify: !meta.isSeeded})`,
followed by `torrent._progressOverride = 0` when
`meta.isSeeded && !meta.isVerified`. -/
structure Registration where
  magnetURI : String
  skipVerify : Bool
  progressOverride : Option Nat
deriving DecidableEq

/-- The registration `loadExistingTorrents` performs for one descriptor. -/
def registerMeta (m : StoredTorrentMeta) : Registration :=
  { magnetURI := m.magnetURI
  , skipVerify := !(truthy m.isSeeded)
  , progressOverride :=
      if truthy m.isSeeded && !(truthy m.isVerified) then some 0 else none }

/-- `loadExistingTorrents`: the whole `metas.map(meta => client.add(...))`
loop runs inside a single `try/catch`.  `addFails` says for which descriptor
`client.add` throws synchronously; registrations already performed keep
their side effect, the throw aborts the rest of the map, and the `catch`
logs one warning (second component `true`).  Returns the transfers actually
registered with the engine and whether the load aborted. -/
def loadExistingTorrents (addFails : StoredTorrentMeta → Bool) :
    List StoredTorrentMeta → List Registration × Bool
  | [] => ([], false)
  | m :: rest =>
      if addFails m then ([], true)
      else
        let r := loadExistingTorrents addFails rest
        (registerMeta m :: r.1, r.2)

/-- Modelled from the spec (claim C1, for comparison with the code): skip
the engine's verification pass unless `isLocallyOriginated && !isVerified`. -/
def specSkipVerify (m : StoredTorrentMeta) : Bool :=
  !(truthy m.isSeeded && !(truthy m.isVerified))

/-- Total value of `getAsync` on an initialized store, by case: used to
reduce the `do`/`catch` plumbing in proofs. -/
def getModel (d : Dir) (readFails bufFails : String → Bool) (index : Nat)
    (opts : GetOpts) : Option Chunk :=
  match tRead d (getChunkFileName index) with
  | none => none
  | some buf =>
      if readFails (getChunkFileName index) then none
      else if bufFails (getChunkFileName index) then none
      else if buf.length = 0 then none
      else
        let start := jsOrDefault opts.offset 0
        let len := jsOrDefault opts.length (buf.length - start)
        some ((buf.drop start).take len)

/-! ### Helper lemmas -/

theorem tRead_tDelete {β : Type} (t : Table β) (n m : String) :
    tRead (tDelete t n) m = if m = n then none else tRead t m := by
  induction t with
  | nil => by_cases h2 : m = n <;> simp [tRead, tDelete, h2]
  | cons p rest ih =>
      obtain ⟨pn, pb⟩ := p
      by_cases h3 : m = n
      · rw [h3] at ih ⊢
        by_cases h1 : pn = n <;> simp [tDelete, tRead, h1, ih]
      · by_cases h1 : pn = n
        · have hpm : ¬pn = m := by
            rw [h1]; exact fun hh => h3 hh.symm
          have hnm : ¬n = m := fun hh => h3 hh.symm
          simp [tDelete, tRead, h1, hpm, hnm, ih, h3]
        · by_cases h2 : pn = m <;> simp [tDelete, tRead, h1, h2, ih, h3]

theorem tRead_tWrite_self {β : Type} (t : Table β) (n : String) (b : β) :
    tRead (tWrite t n b) n = some b := by
  simp [tWrite, tRead]

theorem tRead_tWrite_ne {β : Type} (t : Table β) (n m : String) (b : β)
    (h : m ≠ n) : tRead (tWrite t n b) m = tRead t m := by
  have hnm : ¬n = m := fun hh => h hh.symm
  simp [tWrite, tRead, hnm, tRead_tDelete, h]

theorem tRead_tDelete_self {β : Type} (t : Table β) (n : String) :
    tRead (tDelete t n) n = none := by
  simp [tRead_tDelete]

theorem tVals_tDelete_subset {β : Type} (t : Table β) (n : String) (b : β)
    (h : b ∈ tVals (tDelete t n)) : b ∈ tVals t := by
  induction t with
  | nil => simp [tDelete, tVals] at h
  | cons p rest ih =>
      obtain ⟨pn, pb⟩ := p
      by_cases h1 : pn = n
      · simp only [tDelete, if_pos h1] at h
        simp only [tVals, List.map_cons, List.mem_cons]
        exact Or.inr (ih h)
      · simp only [tDelete, if_neg h1, tVals, List.map_cons, List.mem_cons]
          at h ⊢
        rcases h with h | h
        · exact Or.inl h
        · exact Or.inr (ih h)

theorem mem_of_tRead_some {β : Type} (t : Table β) (n : String) (b : β)
    (h : tRead t n = some b) : n ∈ tNames t := by
  induction t with
  | nil => simp [tRead] at h
  | cons p rest ih =>
      obtain ⟨pn, pb⟩ := p
      by_cases h1 : pn = n
      · simp [tNames, h1]
      · simp only [tRead, if_neg h1] at h
        simp only [tNames, List.map_cons, List.mem_cons]
        exact Or.inr (ih h)

theorem jsOrDefault_some_zero (n : Nat) : jsOrDefault (some n) 0 = n := by
  cases n <;> rfl

theorem jsOrDefault_some_pos (n d : Nat) (h : 1 ≤ n) :
    jsOrDefault (some n) d = n := by
  cases n with
  | zero => omega
  | succ k => rfl

theorem ensureInitialized_of_initialized (s : WebTorrentOPFSPieceStore)
    (init : InitOutcome) (hs : s.initialized = true) :
    ensureInitialized s init = .ok () := by
  simp [ensureInitialized, hs]

theorem ensureInitialized_success (s : WebTorrentOPFSPieceStore) :
    ensureInitialized s .success = .ok () := by
  by_cases hs : s.initialized <;> simp [ensureInitialized, hs]

theorem getAsync_eq_getModel (s : WebTorrentOPFSPieceStore)
    (init : InitOutcome) (d : Dir) (rf bf : String → Bool) (index : Nat)
    (opts : GetOpts) (hinit : ensureInitialized s init = .ok ()) :
    getAsync s init d rf bf index opts = .ok (getModel d rf bf index opts) := by
  unfold getAsync
  rw [hinit]
  unfold getAsyncBody getModel readFile
  cases htr : tRead d (getChunkFileName index) with
  | none => simp
  | some buf =>
      cases hrf : rf (getChunkFileName index) with
      | true => simp
      | false =>
          cases hbf : bf (getChunkFileName index) <;>
            by_cases hlen : buf.length = 0 <;> simp [hbf, hlen]

theorem get_eq_of_initialized (s : WebTorrentOPFSPieceStore)
    (init : InitOutcome) (d : Dir) (rf bf : String → Bool) (index : Nat)
    (opts : GetOpts) (hs : s.initialized = true) :
    WebTorrentOPFSPieceStore.get s init d rf bf index opts =
      (match getModel d rf bf index opts with
       | some buffer => .data buffer
       | none => .absent) := by
  unfold WebTorrentOPFSPieceStore.get
  rw [getAsync_eq_getModel s init d rf bf index opts
    (ensureInitialized_of_initialized s init hs)]
  simp only [hs, Bool.true_eq_false, if_false]
  cases getModel d rf bf index opts <;> rfl

theorem mem_insertByCreatedAtDesc (m x : StoredTorrentMeta)
    (l : List StoredTorrentMeta) (h : x ∈ insertByCreatedAtDesc m l) :
    x = m ∨ x ∈ l := by
  induction l with
  | nil => simp [insertByCreatedAtDesc] at h; exact Or.inl h
  | cons y ys ih =>
      by_cases hc : y.createdAt ≤ m.createdAt
      · simp only [insertByCreatedAtDesc, if_pos hc, List.mem_cons] at h
        rcases h with h | h | h
        · exact Or.inl h
        · exact Or.inr (by simp [h])
        · exact Or.inr (List.mem_cons_of_mem _ h)
      · simp only [insertByCreatedAtDesc, if_neg hc, List.mem_cons] at h
        rcases h with h | h
        · exact Or.inr (by simp [h])
        · rcases ih h with h2 | h2
          · exact Or.inl h2
          · exact Or.inr (List.mem_cons_of_mem _ h2)

theorem mem_sortByCreatedAtDesc (x : StoredTorrentMeta)
    (l : List StoredTorrentMeta) (h : x ∈ sortByCreatedAtDesc l) : x ∈ l := by
  induction l with
  | nil => simp [sortByCreatedAtDesc] at h
  | cons y ys ih =>
      simp only [sortByCreatedAtDesc, List.foldr_cons] at h
      rcases mem_insertByCreatedAtDesc y x _ h with h2 | h2
      · simp [h2]
      · exact List.mem_cons_of_mem _ (ih h2)

theorem insertByCreatedAtDesc_greatest (m : StoredTorrentMeta)
    (l : List StoredTorrentMeta) (h : ∀ x ∈ l, x.createdAt < m.createdAt) :
    insertByCreatedAtDesc m l = m :: l := by
  cases l with
  | nil => rfl
  | cons y ys =>
      have : y.createdAt ≤ m.createdAt :=
        Nat.le_of_lt (h y (List.mem_cons_self y ys))
      simp [insertByCreatedAtDesc, this]

theorem destroyFold_preserves_none (df : String → Bool) (l : List String)
    (acc : Dir) (m : String) (h : tRead acc m = none) :
    tRead (l.foldl (fun acc f => deleteFile acc df f) acc) m = none := by
  induction l generalizing acc with
  | nil => simpa using h
  | cons f fs ih =>
      simp only [List.foldl_cons]
      apply ih
      unfold deleteFile
      by_cases hdf : df f
      · simpa [hdf] using h
      · simp only [hdf, Bool.false_eq_true, if_false, tRead_tDelete]
        by_cases hm : m = f <;> simp [hm, h]

theorem destroyFold_other (df : String → Bool) (l : List String) (acc : Dir)
    (m : String) (hl : ∀ f ∈ l, strStartsWith f tmpChunkMark = true)
    (hm : strStartsWith m tmpChunkMark = false) :
    tRead (l.foldl (fun acc f => deleteFile acc df f) acc) m = tRead acc m := by
  induction l generalizing acc with
  | nil => rfl
  | cons f fs ih =>
      simp only [List.foldl_cons]
      have hmf : ¬m = f := by
        intro hh
        rw [hh] at hm
        rw [hl f (List.mem_cons_self f fs)] at hm
        exact Bool.noConfusion hm
      rw [ih _ (fun g hg => hl g (List.mem_cons_of_mem f hg))]
      unfold deleteFile
      by_cases hdf : df f
      · simp [hdf]
      · simp [hdf, tRead_tDelete, hmf]

theorem destroyFold_deletes (df : String → Bool) (l : List String) (acc : Dir)
    (f : String) (hf : f ∈ l) (hdf : df f = false) :
    tRead (l.foldl (fun acc g => deleteFile acc df g) acc) f = none := by
  induction l generalizing acc with
  | nil => simp at hf
  | cons g gs ih =>
      simp only [List.foldl_cons]
      by_cases hgf : g = f
      · subst hgf
        by_cases hmem : g ∈ gs
        · exact ih _ hmem
        · apply destroyFold_preserves_none
          simp [deleteFile, hdf, tRead_tDelete_self]
      · rcases List.mem_cons.mp hf with h | h
        · exact absurd h.symm hgf
        · exact ih _ h

/-! ### Sample data for witnesses and counterexamples -/

/-- A one-file manifest. -/
def sampleFiles : List TFile := [{ name := "a.bin", length := 4, path := "a.bin" }]

/-- A descriptor of a downloaded (not locally-originated) transfer that was
previously verified. -/
def metaDownloadedVerified : StoredTorrentMeta :=
  { infoHash := "hashA", name := "A", magnetURI := "magnet:A", length := 4
  , files := sampleFiles, createdAt := 1
  , isSeeded := some false, isVerified := some true }

/-- A descriptor of a locally-originated (seeded) transfer not yet
verified. -/
def metaSeededUnverified : StoredTorrentMeta :=
  { infoHash := "hashB", name := "B", magnetURI := "magnet:B", length := 4
  , files := sampleFiles, createdAt := 2
  , isSeeded := some true, isVerified := some false }

/-- A descriptor of a locally-originated transfer that was already
verified. -/
def metaSeededVerified : StoredTorrentMeta :=
  { infoHash := "hashC", name := "C", magnetURI := "magnet:C", length := 4
  , files := sampleFiles, createdAt := 3
  , isSeeded := some true, isVerified := some true }

/-- A piece store instance whose initialization has completed. -/
def readyStore : WebTorrentOPFSPieceStore :=
  { infoHash := "hashA", fileIndex := 0, chunkLength := 4, fileName := "a.bin"
  , initialized := true, hasInitPromise := true, instId := 0 }

/-- The same store before its memoized initialization task has resolved. -/
def pendingStore : WebTorrentOPFSPieceStore :=
  { readyStore with initialized := false }

/-- Failure oracle under which no underlying operation fails. -/
def noFailure : String → Bool := fun _ => false

/-- The engine torrent object of the rehydrated seeded transfer, as seen by
the `verify` handler. -/
def verifiedTorrentObj : TorrentObj :=
  { infoHash := "hashB", name := "B", magnetURI := "magnet:B", length := 4
  , files := sampleFiles, progressOverride := some 0 }

/-! ### C1 — skipVerify at rehydration registration -/

/-- C1 counterexample: for a locally-originated descriptor that is already
verified (`isSeeded = true`, `isVerified = true`), `loadExistingTorrents`
registers the transfer with `skipVerify = false` — the engine is NOT
instructed to skip its verification pass — whereas the claim's formula
(`skip unless isLocallyOriginated && !isVerified`, `specSkipVerify`) demands
`skipVerify = true` for this descriptor. -/
theorem C1_counterexample :
    (loadExistingTorrents (fun _ => false) [metaSeededVerified]).1 =
      [{ magnetURI := "magnet:C", skipVerify := false
       , progressOverride := none }] ∧
    specSkipVerify metaSeededVerified = true := by
  exact ⟨rfl, rfl⟩

/-- C1 (amended): during rehydration every stored descriptor is
re-registered with the engine instructed to skip its own verification pass
unless the descriptor is locally originated (`skipVerify = !isSeeded`; the
stored `isVerified` flag is not consulted), and the Progress Override of 0
is applied at registration exactly when
`isLocallyOriginated && !isVerified`. -/
theorem C1_rehydration_registration (metas : List StoredTorrentMeta)
    (m : StoredTorrentMeta) (hm : m ∈ metas) :
    ∃ r ∈ (loadExistingTorrents (fun _ => false) metas).1,
      r.magnetURI = m.magnetURI ∧
      r.skipVerify = !(truthy m.isSeeded) ∧
      (r.progressOverride = some 0 ↔
        (truthy m.isSeeded && !(truthy m.isVerified)) = true) := by
  induction metas with
  | nil => simp at hm
  | cons x rest ih =>
      simp only [loadExistingTorrents, Bool.false_eq_true, if_false]
      rcases List.mem_cons.mp hm with h | h
      · refine ⟨registerMeta x, List.mem_cons_self _ _, ?_⟩
        subst h
        refine ⟨rfl, rfl, ?_⟩
        unfold registerMeta
        by_cases hc : (truthy m.isSeeded && !(truthy m.isVerified)) = true <;>
          simp [hc]
      · obtain ⟨r, hr, hprops⟩ := ih h
        exact ⟨r, List.mem_cons_of_mem _ hr, hprops⟩

/-- C1 witness: instantiation of the amended theorem at the two-descriptor
rehydration scenario. -/
theorem C1_witness :
    ∃ r ∈ (loadExistingTorrents (fun _ => false)
        [metaDownloadedVerified, metaSeededUnverified]).1,
      r.magnetURI = metaSeededUnverified.magnetURI ∧
      r.skipVerify = !(truthy metaSeededUnverified.isSeeded) ∧
      (r.progressOverride = some 0 ↔
        (truthy metaSeededUnverified.isSeeded &&
          !(truthy metaSeededUnverified.isVerified)) = true) :=
  C1_rehydration_registration [metaDownloadedVerified, metaSeededUnverified]
    metaSeededUnverified (by simp)

/-! ### C2 — verify handler of a rehydrated seeded transfer -/

/-- C2 evaluation at the failing input: when the `verify` event fires for the
rehydrated seeded transfer (descriptor `{isSeeded: true, isVerified: false}`),
the handler does set the Progress Override to 1, and it does re-persist a
descriptor for the same identity — but `storeTorrentMeta` serializes only
`{infoHash, name, magnetURI, length, files, createdAt}`, dropping the
`isVerified: true` flag the handler passes, so the stored record's
`isVerified` is absent (`none`), not `true`. -/
theorem C2_verify_persists_unverified :
    (onVerifyHandler [("hashB", metaSeededUnverified)] metaSeededUnverified
        verifiedTorrentObj 42).1 = some 1 ∧
    tRead (onVerifyHandler [("hashB", metaSeededUnverified)]
        metaSeededUnverified verifiedTorrentObj 42).2 ("hashB") =
      some (storeTorrentMetaRecord verifiedTorrentObj 42) ∧
    (storeTorrentMetaRecord verifiedTorrentObj 42).isVerified = none := by
  exact ⟨rfl, rfl, rfl⟩

/-! ### C8 — error independence during rehydration -/

/-- C8 counterexample: two stored descriptors, where registration of the
first throws (`addFails` true exactly for `metaDownloadedVerified`): the
whole rehydration loop aborts and NO transfer is registered — in particular
the second, valid descriptor (`metaSeededUnverified`) is not re-registered,
contradicting the claim that each descriptor's failure is independent. -/
theorem C8_counterexample :
    loadExistingTorrents (fun m => m.infoHash == "hashA")
        [metaDownloadedVerified, metaSeededUnverified] = ([], true) := by
  rfl

/-- C8 (amended): a synchronous error raised while registering one
descriptor's transfer aborts rehydration of all LATER descriptors — the
registered transfers are exactly those before the first failing descriptor
(the whole `metas.map(... client.add ...)` loop runs in a single
`try/catch`) — and one failure warning is reported for the load as a whole
exactly when some descriptor's registration throws. -/
theorem C8_rehydration_abort (addFails : StoredTorrentMeta → Bool)
    (metas : List StoredTorrentMeta) :
    (loadExistingTorrents addFails metas).1 =
      (metas.takeWhile (fun m => !(addFails m))).map registerMeta ∧
    (loadExistingTorrents addFails metas).2 = metas.any addFails := by
  induction metas with
  | nil => exact ⟨rfl, rfl⟩
  | cons m rest ih =>
      cases hf : addFails m with
      | true => simp [loadExistingTorrents, hf, List.takeWhile_cons]
      | false =>
          simp [loadExistingTorrents, hf, List.takeWhile_cons, ih.1, ih.2]

/-! ### C3 — process-wide singleton per (identity, fileIndex) -/

/-- C3: while an instance for the key is in the registry, running the
constructor again returns that same instance (the very object stored in the
registry), leaves the registry — and hence the instance's state — unchanged,
and creates no new initialization task; consequently any further sequence of
construction requests for the key creates zero additional initialization
tasks, so at most one task is ever created for the key. -/
theorem C3_registry_reuse (reg : Registry) (opts : StoreOpts)
    (s : WebTorrentOPFSPieceStore) (freshId chunkLength : Nat)
    (freshIds : List Nat) (h : tRead reg (storeKey opts) = some s) :
    construct reg freshId chunkLength opts = .ok ⟨s, reg, false⟩ ∧
    constructRepeat chunkLength opts reg freshIds = (reg, 0) := by
  have h1 : ∀ fid cl : Nat, construct reg fid cl opts = .ok ⟨s, reg, false⟩ := by
    intro fid cl
    simp [construct, h]
  refine ⟨h1 freshId chunkLength, ?_⟩
  induction freshIds with
  | nil => rfl
  | cons fid rest ih =>
      unfold constructRepeat
      rw [h1 fid chunkLength]
      simp [ih]

/-- C3 witness: with `readyStore` registered under its key, a second and a
third construction both reuse it and create no initialization task. -/
theorem C3_witness :
    construct [("hashA_0", readyStore)] 7 4
        ⟨some ("hashA"), some 0, some ("a.bin")⟩ =
      .ok ⟨readyStore, [("hashA_0", readyStore)], false⟩ ∧
    constructRepeat 4 ⟨some ("hashA"), some 0, some ("a.bin")⟩
        [("hashA_0", readyStore)] [8, 9] = ([("hashA_0", readyStore)], 0) :=
  C3_registry_reuse [("hashA_0", readyStore)]
    ⟨some ("hashA"), some 0, some ("a.bin")⟩ readyStore 7 4 [8, 9] rfl

/-! ### C4 — operations issued during initialization -/

/-- C4 counterexample: a `get` issued on a store whose initialization has
not yet completed (`pendingStore`, whose memoized task will succeed) fails
immediately with `Store not initialized` instead of awaiting the task —
while the identical call on the initialized store (`readyStore`) succeeds
(returns absent).  So an operation DOES fail merely because it was issued
during initialization, contrary to the claim. -/
theorem C4_counterexample :
    WebTorrentOPFSPieceStore.get pendingStore .success [] noFailure noFailure
        0 ⟨none, none⟩ = .err ("Store not initialized") ∧
    WebTorrentOPFSPieceStore.get readyStore .success [] noFailure noFailure
        0 ⟨none, none⟩ = .absent := by
  exact ⟨rfl, rfl⟩

/-- C4 (amended): a `put` issued on an adapter whose initialization has not
yet completed awaits the single memoized initialization task and then
proceeds normally (when the task succeeds and the write does not fail, the
chunk entry is written exactly as for an initialized store); a `get` issued
before initialization has completed does not await: it fails immediately
with the `Store not initialized` error. -/
theorem C4_ops_during_init (s : WebTorrentOPFSPieceStore)
    (hs : s.initialized = false) (d : Dir) (wf rf bf : String → Bool)
    (index : Nat) (buf : Chunk) (opts : GetOpts)
    (hw : wf (getChunkFileName index) = false) :
    WebTorrentOPFSPieceStore.put s .success d wf index buf =
      .ok (tWrite d (getChunkFileName index) buf) ∧
    WebTorrentOPFSPieceStore.get s .success d rf bf index opts =
      .err ("Store not initialized") := by
  constructor
  · unfold WebTorrentOPFSPieceStore.put putAsync
    rw [ensureInitialized_success]
    simp [writeFile, hw]
  · unfold WebTorrentOPFSPieceStore.get
    simp [hs]

/-- C4 witness: instantiation at `pendingStore` with an empty directory. -/
theorem C4_witness :
    WebTorrentOPFSPieceStore.put pendingStore .success [] noFailure 0
        [1, 2] = .ok (tWrite [] (getChunkFileName 0) [1, 2]) ∧
    WebTorrentOPFSPieceStore.get pendingStore .success [] noFailure noFailure
        0 ⟨none, none⟩ = .err ("Store not initialized") :=
  C4_ops_during_init pendingStore rfl [] noFailure noFailure noFailure 0
    [1, 2] ⟨none, none⟩ rfl

/-! ### C5 — put/get round-trip -/

/-- C5 counterexample: storing the EMPTY byte sequence at index 0 succeeds,
but a subsequent `get` returns absent (`null`), not the stored empty
sequence — `getAsync` treats a zero-length stored chunk as absent — so the
round-trip claimed "for every byte sequence" fails at `bytes = []`. -/
theorem C5_counterexample :
    putAsync readyStore .success [] noFailure 0 [] =
      .ok [(getChunkFileName 0, [])] ∧
    getAsync readyStore .success [(getChunkFileName 0, [])] noFailure
        noFailure 0 ⟨none, none⟩ = .ok none := by
  exact ⟨rfl, rfl⟩

/-- C5 (amended): for every index and every NONEMPTY byte sequence,
`put(index, bytes)` followed by `get(index)` on the same initialized adapter
returns exactly `bytes`, and `get(index, {offset, length})` returns the
slice `bytes[offset : offset+length]` for any sub-range with `length ≥ 1`
lying within the stored chunk's length.  (A stored empty sequence reads back
as absent, and a requested `length` of 0 is falsy in JS and falls back to
the whole-tail default, so both are excluded.) -/
theorem C5_roundtrip (s : WebTorrentOPFSPieceStore) (init : InitOutcome)
    (hs : s.initialized = true) (d : Dir) (wf rf bf : String → Bool)
    (index : Nat) (bytes : Chunk) (hb : bytes ≠ [])
    (hw : wf (getChunkFileName index) = false)
    (hr : rf (getChunkFileName index) = false)
    (hf : bf (getChunkFileName index) = false)
    (off len : Nat) (hlen : 1 ≤ len) (_hrange : off + len ≤ bytes.length) :
    ∃ d2, putAsync s init d wf index bytes = .ok d2 ∧
      getAsync s init d2 rf bf index ⟨none, none⟩ = .ok (some bytes) ∧
      getAsync s init d2 rf bf index ⟨some off, some len⟩ =
        .ok (some ((bytes.drop off).take len)) := by
  have hinit := ensureInitialized_of_initialized s init hs
  refine ⟨tWrite d (getChunkFileName index) bytes, ?_, ?_, ?_⟩
  · unfold putAsync
    rw [hinit]
    simp [writeFile, hw]
  · rw [getAsync_eq_getModel _ _ _ _ _ _ _ hinit]
    unfold getModel
    rw [tRead_tWrite_self]
    simp [hr, hf, hb, jsOrDefault]
  · rw [getAsync_eq_getModel _ _ _ _ _ _ _ hinit]
    unfold getModel
    rw [tRead_tWrite_self]
    simp only [hr, hf, Bool.false_eq_true, if_false, List.length_eq_zero, hb,
      jsOrDefault_some_zero, jsOrDefault_some_pos len _ hlen]

/-- C5 witness: round-trip of `[5, 6, 7]` at index 2, with the sub-range
`offset 1, length 2`. -/
theorem C5_witness :
    ∃ d2, putAsync readyStore .success [] noFailure 2 [5, 6, 7] = .ok d2 ∧
      getAsync readyStore .success d2 noFailure noFailure 2 ⟨none, none⟩ =
        .ok (some [5, 6, 7]) ∧
      getAsync readyStore .success d2 noFailure noFailure 2
          ⟨some 1, some 2⟩ =
        .ok (some ((([5, 6, 7] : Chunk).drop 1).take 2)) :=
  C5_roundtrip readyStore .success rfl [] noFailure noFailure noFailure 2
    [5, 6, 7] (by decide) rfl rfl rfl 1 2 (by decide) (by decide)

/-! ### C6 — out-of-bounds range requests -/

/-- C6 counterexample: with `[10, 11, 12]` stored at index 0, the request
`{offset: 2, length: 5}` has `offset + length = 7 > 3`, yet `get` neither
fails nor returns absent: it silently returns `[12]` — data truncated to the
stored length (1 byte instead of the 5 requested). -/
theorem C6_counterexample :
    getAsync readyStore .success [(getChunkFileName 0, [10, 11, 12])]
        noFailure noFailure 0 ⟨some 2, some 5⟩ = .ok (some [12]) ∧
    2 + 5 > ([10, 11, 12] : Chunk).length ∧
    ([12] : Chunk).length < 5 := by
  exact ⟨rfl, by decide, by decide⟩

/-- C6 (amended): the stored chunk's length is never validated against the
requested range: for a stored nonempty chunk and any requested range with
`length ≥ 1` whose `offset + length` exceeds the chunk's byte length,
`get(index, range)` returns the slice clamped to the stored length —
strictly shorter than requested (possibly empty) — i.e. silently truncated
data, not a failure and not absent. -/
theorem C6_oob_returns_truncated (s : WebTorrentOPFSPieceStore)
    (init : InitOutcome) (hs : s.initialized = true) (d : Dir)
    (rf bf : String → Bool) (index : Nat) (bytes : Chunk)
    (hpresent : tRead d (getChunkFileName index) = some bytes)
    (hb : bytes ≠ []) (hr : rf (getChunkFileName index) = false)
    (hf : bf (getChunkFileName index) = false) (off len : Nat)
    (hlen : 1 ≤ len) (hoob : bytes.length < off + len) :
    getAsync s init d rf bf index ⟨some off, some len⟩ =
      .ok (some ((bytes.drop off).take len)) ∧
    ((bytes.drop off).take len).length < len := by
  constructor
  · rw [getAsync_eq_getModel _ _ _ _ _ _ _
      (ensureInitialized_of_initialized s init hs)]
    unfold getModel
    rw [hpresent]
    simp only [hr, hf, Bool.false_eq_true, if_false, List.length_eq_zero, hb,
      jsOrDefault_some_zero, jsOrDefault_some_pos len _ hlen]
  · rw [List.length_take, List.length_drop]
    omega

/-- C6 witness: the clamped slice for `{offset: 2, length: 5}` over a
3-byte stored chunk. -/
theorem C6_witness :
    getAsync readyStore .success [(getChunkFileName 0, [10, 11, 12])]
        noFailure noFailure 0 ⟨some 2, some 5⟩ =
      .ok (some ((([10, 11, 12] : Chunk).drop 2).take 5)) ∧
    ((([10, 11, 12] : Chunk).drop 2).take 5).length < 5 :=
  C6_oob_returns_truncated readyStore .success rfl
    [(getChunkFileName 0, [10, 11, 12])] noFailure noFailure 0 [10, 11, 12]
    rfl (by decide) rfl rfl 2 5 (by decide) (by decide)

/-! ### C9 — get never reports an error once initialized -/

/-- C9: once the adapter is initialized, `get` never delivers an error to
its callback: the result is never `err`, and each underlying read failure —
an unreadable entry (`readFails`), a failed buffer extraction (`bufFails`),
or a stored zero-length chunk — is mapped to the absent result. -/
theorem C9_get_no_error (s : WebTorrentOPFSPieceStore) (init : InitOutcome)
    (d : Dir) (rf bf : String → Bool) (index : Nat) (opts : GetOpts)
    (hs : s.initialized = true) :
    (WebTorrentOPFSPieceStore.get s init d rf bf index opts).isError =
      false ∧
    (rf (getChunkFileName index) = true →
      WebTorrentOPFSPieceStore.get s init d rf bf index opts = .absent) ∧
    (bf (getChunkFileName index) = true →
      WebTorrentOPFSPieceStore.get s init d rf bf index opts = .absent) ∧
    (tRead d (getChunkFileName index) = some [] →
      WebTorrentOPFSPieceStore.get s init d rf bf index opts = .absent) := by
  rw [get_eq_of_initialized s init d rf bf index opts hs]
  refine ⟨?_, ?_, ?_, ?_⟩
  · cases hm : getModel d rf bf index opts <;> rfl
  · intro hrf
    unfold getModel
    cases htr : tRead d (getChunkFileName index) <;> simp [hrf]
  · intro hbf
    unfold getModel
    cases htr : tRead d (getChunkFileName index) with
    | none => rfl
    | some buf => cases hrf : rf (getChunkFileName index) <;> simp [hbf]
  · intro hempty
    unfold getModel
    rw [hempty]
    cases hrf : rf (getChunkFileName index) <;>
      cases hbf : bf (getChunkFileName index) <;> simp

/-- C9 witness: a store with an unreadable stored entry — every read of it
fails — still reports absent, not an error. -/
theorem C9_witness :
    (WebTorrentOPFSPieceStore.get readyStore .success
        [(getChunkFileName 0, [1])] (fun _ => true) noFailure 0
        ⟨none, none⟩).isError = false ∧
    ((fun _ => true : String → Bool) (getChunkFileName 0) = true →
      WebTorrentOPFSPieceStore.get readyStore .success
          [(getChunkFileName 0, [1])] (fun _ => true) noFailure 0
          ⟨none, none⟩ = .absent) ∧
    (noFailure (getChunkFileName 0) = true →
      WebTorrentOPFSPieceStore.get readyStore .success
          [(getChunkFileName 0, [1])] (fun _ => true) noFailure 0
          ⟨none, none⟩ = .absent) ∧
    (tRead [(getChunkFileName 0, [1])] (getChunkFileName 0) = some [] →
      WebTorrentOPFSPieceStore.get readyStore .success
          [(getChunkFileName 0, [1])] (fun _ => true) noFailure 0
          ⟨none, none⟩ = .absent) :=
  C9_get_no_error readyStore .success [(getChunkFileName 0, [1])]
    (fun _ => true) noFailure 0 ⟨none, none⟩ rfl

/-! ### C7 — destroy: registry removal and best-effort chunk cleanup -/

/-- C7: `destroy()` removes the instance from the registry immediately (a
subsequent construction for the same key takes the fresh-instance path,
creating a new, uninitialized instance and a new initialization task);
`destroyAsync` then deletes exactly the entries matching the chunk naming
convention — entries not matching it are untouched — and each deletion is
best-effort: every chunk entry whose own deletion does not fail ends up
removed, regardless of failures on other entries. -/
theorem C7_destroy_cleanup (reg : Registry) (s : WebTorrentOPFSPieceStore)
    (d : Dir) (delFails : String → Bool) (hih : ¬s.infoHash = "")
    (freshId chunkLength : Nat) :
    tRead (s.destroy reg d delFails).registry
        (s.infoHash ++ "_" ++ toString s.fileIndex) = none ∧
    (∃ s2 : WebTorrentOPFSPieceStore,
      construct (s.destroy reg d delFails).registry freshId chunkLength
          ⟨some s.infoHash, some s.fileIndex, some s.fileName⟩ =
        .ok ⟨s2, tWrite (s.destroy reg d delFails).registry
            (storeKey ⟨some s.infoHash, some s.fileIndex, some s.fileName⟩)
            s2, true⟩ ∧
      s2.initialized = false ∧ s2.instId = freshId) ∧
    (∀ n, strStartsWith n tmpChunkMark = false →
      tRead (s.destroy reg d delFails).dir n = tRead d n) ∧
    (∀ n, strStartsWith n tmpChunkMark = true → delFails n = false →
      tRead (s.destroy reg d delFails).dir n = none) := by
  have hkey : storeKey ⟨some s.infoHash, some s.fileIndex, some s.fileName⟩ =
      s.infoHash ++ "_" ++ toString s.fileIndex := by
    simp [storeKey, jsTemplateStr]
  have hreg : tRead (s.destroy reg d delFails).registry
      (s.infoHash ++ "_" ++ toString s.fileIndex) = none := by
    unfold WebTorrentOPFSPieceStore.destroy
    exact tRead_tDelete_self _ _
  have hdir : (s.destroy reg d delFails).dir =
      ((tNames d).filter (fun f => strStartsWith f tmpChunkMark)).foldl
        (fun acc f => deleteFile acc delFails f) d := by
    unfold WebTorrentOPFSPieceStore.destroy
      WebTorrentOPFSPieceStore.destroyAsync
    simp [hih]
  refine ⟨hreg, ?_, ?_, ?_⟩
  · refine ⟨⟨s.infoHash, s.fileIndex, chunkLength,
      jsOrStr (some s.fileName) ("file_" ++ toString s.fileIndex),
      false, true, freshId⟩, ?_, rfl, rfl⟩
    simp [construct, hkey, hreg, hih]
  · intro n hn
    rw [hdir]
    exact destroyFold_other delFails _ d n
      (fun f hf => (List.mem_filter.mp hf).2) hn
  · intro n hn hdel
    rw [hdir]
    cases htr : tRead d n with
    | none => exact destroyFold_preserves_none delFails _ d n htr
    | some c =>
        exact destroyFold_deletes delFails _ d n
          (List.mem_filter.mpr ⟨mem_of_tRead_some d n c htr, hn⟩) hdel

/-- Directory used by the C7 witness: two chunk entries and one non-chunk
entry. -/
def c7Dir : Dir :=
  [(getChunkFileName 0, [1]), (getChunkFileName 1, [2]), ("other.txt", [3])]

/-- Deletion-failure oracle of the C7 witness: deleting chunk 1 fails. -/
def c7DelFails : String → Bool := fun f => f == getChunkFileName 1

/-- C7 witness: destroying `readyStore` empties its registry slot, leaves
`other.txt` untouched, and removes chunk 0 even though deleting chunk 1
fails. -/
theorem C7_witness :
    tRead (readyStore.destroy [("hashA_0", readyStore)] c7Dir
        c7DelFails).registry ("hashA" ++ "_" ++ toString 0) = none ∧
    tRead (readyStore.destroy [("hashA_0", readyStore)] c7Dir
        c7DelFails).dir ("other.txt") = tRead c7Dir ("other.txt") ∧
    tRead (readyStore.destroy [("hashA_0", readyStore)] c7Dir
        c7DelFails).dir (getChunkFileName 0) = none := by
  obtain ⟨h1, _, h3, h4⟩ :=
    C7_destroy_cleanup [("hashA_0", readyStore)] readyStore c7Dir c7DelFails
      (by decide) 7 4
  exact ⟨h1, h3 ("other.txt") (by decide),
    h4 (getChunkFileName 0) (by decide) (by decide)⟩

/-! ### C10 — every persist rewrites the fixed field set and resets createdAt -/

/-- C10: every persist of a transfer descriptor writes exactly the record
`{infoHash, name, magnetURI, length, files, createdAt := now}` — the
optional `isSeeded`/`isVerified` fields are absent — stamping `createdAt`
with the time of the write; consequently, re-persisting the descriptor of an
existing transfer with a write time later than every stored descriptor's
`createdAt` places it first in the `createdAt`-descending ordering returned
by `getAllTorrentMetas`. -/
theorem C10_persist_resets_order (md : MetaDir) (t : TorrentObj) (now : Nat)
    (h : ∀ m ∈ tVals md, m.createdAt < now) :
    storeTorrentMeta md t now =
      tWrite md t.infoHash (storeTorrentMetaRecord t now) ∧
    (storeTorrentMetaRecord t now).createdAt = now ∧
    (storeTorrentMetaRecord t now).isSeeded = none ∧
    (storeTorrentMetaRecord t now).isVerified = none ∧
    (getAllTorrentMetas (storeTorrentMeta md t now)).head? =
      some (storeTorrentMetaRecord t now) := by
  refine ⟨rfl, rfl, rfl, rfl, ?_⟩
  unfold getAllTorrentMetas storeTorrentMeta
  have hv : tVals (tWrite md (storeTorrentMetaRecord t now).infoHash
      (storeTorrentMetaRecord t now)) =
      storeTorrentMetaRecord t now ::
        tVals (tDelete md (storeTorrentMetaRecord t now).infoHash) := rfl
  rw [hv]
  unfold sortByCreatedAtDesc
  rw [List.foldr_cons]
  rw [insertByCreatedAtDesc_greatest]
  · rfl
  · intro x hx
    have hx2 := tVals_tDelete_subset md _ x (mem_sortByCreatedAtDesc x _ hx)
    exact h x hx2

/-- C10 witness: re-persisting over a store holding one older descriptor
(createdAt 1) at time 5 puts the fresh record first. -/
theorem C10_witness :
    storeTorrentMeta [("hashA", metaDownloadedVerified)] verifiedTorrentObj
        5 = tWrite [("hashA", metaDownloadedVerified)]
          verifiedTorrentObj.infoHash
          (storeTorrentMetaRecord verifiedTorrentObj 5) ∧
    (storeTorrentMetaRecord verifiedTorrentObj 5).createdAt = 5 ∧
    (storeTorrentMetaRecord verifiedTorrentObj 5).isSeeded = none ∧
    (storeTorrentMetaRecord verifiedTorrentObj 5).isVerified = none ∧
    (getAllTorrentMetas (storeTorrentMeta [("hashA", metaDownloadedVerified)]
        verifiedTorrentObj 5)).head? =
      some (storeTorrentMetaRecord verifiedTorrentObj 5) :=
  C10_persist_resets_order [("hashA", metaDownloadedVerified)]
    verifiedTorrentObj 5 (by decide)
